import Mathlib

set_option maxHeartbeats 1000000
set_option maxRecDepth 10000

/-!
Shallow embedding of Facet v0.1.1 (`src/facet.js`, second document, the version
the claims reference by line number).

Modelling conventions:
* DOM elements are pure trees (`Node`); the `nid : Nat` field models JS object
  identity (needed because inheritance listeners capture a reference to the
  target element).  Template elements hold their `.content` fragment as their
  children; selector scans therefore never descend into a `template`'s
  children, mirroring the invisibility of template content to `querySelectorAll`.
* Attribute lists are ordered `(name, value)` pairs; lookup takes the first
  match, `setAttribute` overwrites in place, mirroring the DOM.
* JS exceptions (the `TypeError` from destructuring a failed regex match, the
  `TypeError` from `this.mixins.filter` when `this.mixins` is undefined, and
  `customElements.define` rejecting a duplicate tag) are modelled with
  `Except Unit`.
* Filter functions are modelled as `String → Option String → Option String`
  taking the new value and the old value and returning the produced value
  (`none` models a JS function returning `undefined`/`null`, which the source
  replaces with the raw value via `?? `).  The contextual `host`/`root`/`el`
  arguments the source also passes do not influence any claim and are elided.
* Event dispatch (`connect`, `disconnect`, ...) carries no state in the source
  beyond invoking the registered inheritance listeners, which are modelled
  explicitly as `Binding`s; `<script on>` event-handler attachment is likewise
  not observable by any claim and only the script removal is modelled.
-/

namespace Facet

/-- Ordered attribute list of a DOM element: `(name, value)` pairs. -/
abbrev Attrs := List (String × String)

/-- Model of `el.getAttribute(name)`: `none` when the attribute is absent. -/
def getAttr (attrs : Attrs) (name : String) : Option String :=
  (attrs.find? (fun a => a.1 == name)).map (·.2)

/-- Model of `el.hasAttribute(name)`. -/
def hasAttr (attrs : Attrs) (name : String) : Bool :=
  attrs.any (fun a => a.1 == name)

/-- Model of `el.setAttribute(name, v)`: overwrite in place, else append. -/
def setAttr : Attrs → String → String → Attrs
  | [], n, v => [(n, v)]
  | (k, w) :: rest, n, v =>
    if k == n then (k, v) :: rest else (k, w) :: setAttr rest n v

/-- Model of `el.removeAttribute(name)`. -/
def removeAttr (attrs : Attrs) (name : String) : Attrs :=
  attrs.filter (fun a => a.1 != name)

theorem getAttr_cons (k w m : String) (rest : Attrs) :
    getAttr ((k, w) :: rest) m = if k == m then some w else getAttr rest m := by
  by_cases hk : (k == m) = true
  · simp [getAttr, List.find?_cons, hk]
  · have hk' : (k == m) = false := by simpa using hk
    simp [getAttr, List.find?_cons, hk']

theorem setAttr_cons (k w n v : String) (rest : Attrs) :
    setAttr ((k, w) :: rest) n v =
      if k == n then (k, v) :: rest else (k, w) :: setAttr rest n v := rfl

theorem removeAttr_cons (k w n : String) (rest : Attrs) :
    removeAttr ((k, w) :: rest) n =
      if k == n then removeAttr rest n else (k, w) :: removeAttr rest n := by
  by_cases hk : (k == n) = true
  · rw [if_pos hk]
    simp [removeAttr, List.filter_cons, show k = n from by simpa using hk]
  · have hk' : (k == n) = false := by simpa using hk
    rw [if_neg (by simp [hk'])]
    simp [removeAttr, List.filter_cons, show ¬k = n from by simpa using hk]

theorem getAttr_setAttr_self (attrs : Attrs) (n v : String) :
    getAttr (setAttr attrs n v) n = some v := by
  induction attrs with
  | nil => simp [getAttr, setAttr]
  | cons a rest ih =>
    obtain ⟨k, w⟩ := a
    rw [setAttr_cons]
    by_cases hk : (k == n) = true
    · rw [if_pos hk, getAttr_cons, if_pos hk]
    · have hk' : (k == n) = false := by simpa using hk
      rw [if_neg (by simp [hk']), getAttr_cons, if_neg (by simp [hk']), ih]

theorem getAttr_setAttr_ne (attrs : Attrs) (n v m : String) (h : m ≠ n) :
    getAttr (setAttr attrs n v) m = getAttr attrs m := by
  induction attrs with
  | nil =>
    simp [getAttr, setAttr, List.find?_cons, beq_eq_false_iff_ne.mpr (Ne.symm h)]
  | cons a rest ih =>
    obtain ⟨k, w⟩ := a
    rw [setAttr_cons]
    by_cases hk : (k == n) = true
    · have hkeq : k = n := by simpa using hk
      have hkm : (k == m) = false := beq_eq_false_iff_ne.mpr (fun e => h (e.symm.trans hkeq))
      rw [if_pos hk, getAttr_cons, if_neg (by simp [hkm]),
          getAttr_cons, if_neg (by simp [hkm])]
    · have hk' : (k == n) = false := by simpa using hk
      rw [if_neg (by simp [hk']), getAttr_cons, getAttr_cons, ih]

theorem getAttr_removeAttr_self (attrs : Attrs) (n : String) :
    getAttr (removeAttr attrs n) n = none := by
  induction attrs with
  | nil => simp [getAttr, removeAttr]
  | cons a rest ih =>
    obtain ⟨k, w⟩ := a
    rw [removeAttr_cons]
    by_cases hk : (k == n) = true
    · rw [if_pos hk, ih]
    · have hk' : (k == n) = false := by simpa using hk
      rw [if_neg (by simp [hk']), getAttr_cons, if_neg (by simp [hk']), ih]

theorem getAttr_removeAttr_ne (attrs : Attrs) (n m : String) (h : m ≠ n) :
    getAttr (removeAttr attrs n) m = getAttr attrs m := by
  induction attrs with
  | nil => simp [getAttr, removeAttr]
  | cons a rest ih =>
    obtain ⟨k, w⟩ := a
    rw [removeAttr_cons]
    by_cases hk : (k == n) = true
    · have hkeq : k = n := by simpa using hk
      have hkm : (k == m) = false := beq_eq_false_iff_ne.mpr (fun e => h (e.symm.trans hkeq))
      rw [if_pos hk, ih, getAttr_cons, if_neg (by simp [hkm])]
    · have hk' : (k == n) = false := by simpa using hk
      rw [if_neg (by simp [hk']), getAttr_cons, getAttr_cons, ih]

theorem hasAttr_setAttr_self (attrs : Attrs) (n v : String) :
    hasAttr (setAttr attrs n v) n = true := by
  induction attrs with
  | nil => simp [hasAttr, setAttr]
  | cons a rest ih =>
    obtain ⟨k, w⟩ := a
    rw [setAttr_cons]
    by_cases hk : (k == n) = true
    · rw [if_pos hk]; simp [hasAttr, hk]
    · have hk' : (k == n) = false := by simpa using hk
      rw [if_neg (by simp [hk'])]
      simpa [hasAttr, hk'] using ih

/-! ## The `/\s+/g` split (JS `String.prototype.split`)

`"a b".split(/\s+/g) = ["a","b"]`, with empty strings kept at the boundaries:
`" a".split(/\s+/) = ["", "a"]`, `"a ".split(/\s+/) = ["a", ""]`,
`"".split(/\s+/) = [""]`. -/

def splitWsAux : List Char → Option (List Char) → List (List Char)
  | [], some acc => [acc.reverse]
  | [], none => [[]]
  | c :: cs, some acc =>
    if c.isWhitespace then acc.reverse :: splitWsAux cs none
    else splitWsAux cs (some (c :: acc))
  | c :: cs, none =>
    if c.isWhitespace then splitWsAux cs none
    else splitWsAux cs (some [c])

/-- Model of `s.split(/\s+/g)`.  The accumulator is `some acc` while building a
token and `none` while inside a separator run (a run contributes one split). -/
def splitWs (s : String) : List String :=
  (splitWsAux s.data (some [])).map String.mk

/-! ## The inherit mini-syntax

Parser for the anchored regex `/^([^\/>"'=]+)(?:>([^\/>"'=]+))?(?:\/(\w+))?$/`
from `connectedCallback`.  Because the character class of groups 1 and 2
excludes `>` and `/`, greedy matching never needs to backtrack, so the regex is
equivalent to the deterministic maximal-munch parse below.  `none` models the
regex `match` returning `null` (whose destructuring in the source throws). -/

def inheritNameChar (c : Char) : Bool :=
  c != '/' && c != '>' && c != '"' && c != '\'' && c != '='

def wordChar (c : Char) : Bool :=
  c.isAlphanum || c == '_'

def parseInheritToken (s : String) : Option (String × Option String × Option String) :=
  let cs := s.data
  let p1 := cs.takeWhile inheritNameChar
  let r1 := cs.dropWhile inheritNameChar
  if p1.isEmpty then none else
  match r1 with
  | [] => some (String.mk p1, none, none)
  | '>' :: r2 =>
    let p2 := r2.takeWhile inheritNameChar
    let r3 := r2.dropWhile inheritNameChar
    if p2.isEmpty then none else
    match r3 with
    | [] => some (String.mk p1, some (String.mk p2), none)
    | '/' :: r4 =>
      let p3 := r4.takeWhile wordChar
      let r5 := r4.dropWhile wordChar
      if p3.isEmpty then none else
      match r5 with
      | [] => some (String.mk p1, some (String.mk p2), some (String.mk p3))
      | _ => none
    | _ => none
  | '/' :: r4 =>
    let p3 := r4.takeWhile wordChar
    let r5 := r4.dropWhile wordChar
    if p3.isEmpty then none else
    match r5 with
    | [] => some (String.mk p1, none, some (String.mk p3))
    | _ => none
  | _ => none

/-! ## DOM trees -/

/-- A DOM node.  `nid` models JS object identity; `text` covers text nodes.
A `template` element's children stand for its `.content` fragment, so all
selector scans treat `template` elements as leaves. -/
inductive Node where
  | elem (nid : Nat) (tag : String) (attrs : Attrs) (children : List Node)
  | text (s : String)

/-- Model of `script.innerText`: the concatenated text children. -/
def scriptText : List Node → String
  | [] => ""
  | .text s :: ns => s ++ scriptText ns
  | .elem _ _ _ _ :: ns => scriptText ns

/-! ## Filters -/

/-- A filter function, abstracted to the two arguments the claims speak about:
the new value and (for change-time re-copies) the old value.  `none` models a
JS return value of `undefined`/`null`. -/
def Filter := String → Option String → Option String

/-- Model of reading a property from a JS object literal built by repeated
assignment: the last assignment for a key wins. -/
def objGet {α : Type} (l : List (String × α)) (k : String) : Option α :=
  (l.reverse.find? (fun p => p.1 == k)).map (·.2)

/-- Filter resolution from `connectedCallback`:
`this.#localFilters[fn]?.bind(this, this, this.#root) ?? window[fn]`.
With `fn` absent (no `/name` part) both lookups yield `undefined`. -/
def resolveFilter (locals globals : List (String × Filter)) : Option String → Option Filter
  | none => none
  | some n => (objGet locals n).orElse (fun _ => objGet globals n)

/-- Model of `filter?.(v, old, el, this) ?? v`: apply the filter if resolved,
falling back to the raw value when the filter is absent or returns
`undefined`/`null`. -/
def filteredValue (filter : Option Filter) (v : String) (old : Option String) : String :=
  match filter with
  | none => v
  | some f => (f v old).getD v

/-! ## Mixins and component definitions -/

inductive AttachPos where
  | prepend
  | append
deriving DecidableEq

/-- One entry of the `facet.mixins` array: `{ ...options, name, template }`.
`template` holds the template's content fragment (after filter-script
extraction, when the mixin came from discovery). -/
structure MixinDef where
  name : String
  template : List Node
  applyGlobally : Bool
  attachPosition : AttachPos
  localFilters : List (String × Filter)

structure MixinOptions where
  applyGlobally : Bool
  attachPosition : AttachPos
  localFilters : List (String × Filter)

structure ComponentOptions where
  shadowMode : String
  observeAttrs : List String
  applyMixins : List String
  localFilters : List (String × Filter)
  extendsElement : Option String
  formAssoc : Bool

/-- The per-tag data captured by the `FacetComponent` class closure. -/
structure CompDef where
  tagName : String
  template : List Node
  shadowMode : String
  observeAttrs : List String
  localMixins : List MixinDef
  localFilters : List (String × Filter)
  extendsElement : Option String
  formAssoc : Bool

/-- State of the `facet` object.  `mixins = none` models the property being
`undefined`: it is only created by `this.mixins ??= []` inside `defineMixin`.
`components` models the `customElements` registry. -/
structure FacetState where
  mixins : Option (List MixinDef)
  components : List (String × CompDef)

/-- The `facet` object right after the module loads: no `mixins` property,
nothing registered. -/
def initialFacet : FacetState := { mixins := none, components := [] }

/-- Model of `facet.defineMixin(name, template, options)`:
`(this.mixins ??= []).push({ ...options, name, template })`. -/
def defineMixin (s : FacetState) (name : String) (template : List Node)
    (opts : MixinOptions) : FacetState :=
  { s with mixins := some ((s.mixins.getD []) ++
      [{ name := name, template := template, applyGlobally := opts.applyGlobally,
         attachPosition := opts.attachPosition, localFilters := opts.localFilters }]) }

/-- Model of `facet.defineComponent`.  Reading `this.mixins.filter(...)` when
`this.mixins` is still `undefined` throws a `TypeError`; a duplicate tag name
makes `customElements.define` throw. -/
def defineComponent (s : FacetState) (tagName : String) (template : List Node)
    (opts : ComponentOptions) : Except Unit FacetState :=
  match s.mixins with
  | none => .error ()
  | some ms =>
    let localMixins := ms.filter (fun m => m.applyGlobally || opts.applyMixins.contains m.name)
    if (s.components.find? (fun p => p.1 == tagName)).isSome then .error ()
    else .ok { s with components := s.components ++
      [(tagName, { tagName := tagName, template := template, shadowMode := opts.shadowMode,
                   observeAttrs := opts.observeAttrs, localMixins := localMixins,
                   localFilters := opts.localFilters, extendsElement := opts.extendsElement,
                   formAssoc := opts.formAssoc })] }

/-! ## Instance lifecycle: content assembly -/

/-- Model of `content[mixin.attachPosition](fragment)` on a document fragment. -/
def attach (pos : AttachPos) (content frag : List Node) : List Node :=
  match pos with
  | .append => content ++ frag
  | .prepend => frag ++ content

/-- Mixin attachment loop of `connectedCallback` (content part). -/
def mixContent (d : CompDef) : List Node :=
  d.localMixins.foldl (fun c m => attach m.attachPosition c m.template) d.template

/-- Mixin attachment loop of `connectedCallback` (filter-table part):
`Object.assign(this.#localFilters, mixin.localFilters)` for each mixin. -/
def mixFilters (d : CompDef) (fs : List (String × Filter)) : List (String × Filter) :=
  d.localMixins.foldl (fun f m => f ++ m.localFilters) fs

/-- Removal of `<script on>` handler scripts from the assembled content
(`script.remove()` after listener attachment; the listeners themselves are not
observable by any claim).  Template children are invisible to the query. -/
def removeScriptOn : List Node → List Node
  | [] => []
  | .text s :: ns => .text s :: removeScriptOn ns
  | .elem nid tag attrs cs :: ns =>
    if tag == "script" && hasAttr attrs "on" then removeScriptOn ns
    else if tag == "template" then .elem nid tag attrs cs :: removeScriptOn ns
    else .elem nid tag attrs (removeScriptOn cs) :: removeScriptOn ns

/-- One installed `attributeChanged` listener from the inherit scan.  It
captures the source attribute name, the bound target attribute, the filter
resolved at connect time, and (a reference to) the target element. -/
structure Binding where
  ogname : String
  targetAttr : String
  filter : Option Filter
  targetId : Nat

/-- Environment of the inherit scan. -/
structure InheritEnv where
  hostAttrs : Attrs
  observeAttrs : List String
  locals : List (String × Filter)
  globals : List (String × Filter)

/-- JS string truthiness of `getAttribute`'s result (`if(cv) ...`):
false for `null` and for the empty string. -/
def truthy : Option String → Bool
  | none => false
  | some v => v != ""

/-- Processing of one inherit token on one element:
destructuring a failed regex match throws; otherwise copy the (truthy) host
value through the resolved filter and, when the source attribute is observed,
install a listener. -/
def procToken (env : InheritEnv) (nid : Nat) (attrs : Attrs) (t : String) :
    Except Unit (Attrs × Option Binding) :=
  match parseInheritToken t with
  | none => .error ()
  | some (og, ren, fn) =>
    let cv := getAttr env.hostAttrs og
    let filter := resolveFilter env.locals env.globals fn
    let tgt := ren.getD og
    let attrs' := match cv with
      | some v => if v != "" then setAttr attrs tgt (filteredValue filter v none) else attrs
      | none => attrs
    let b := if env.observeAttrs.contains og then
        some { ogname := og, targetAttr := tgt, filter := filter, targetId := nid }
      else none
    .ok (attrs', b)

def procTokens (env : InheritEnv) (nid : Nat) :
    Attrs → List String → Except Unit (Attrs × List Binding)
  | attrs, [] => .ok (attrs, [])
  | attrs, t :: ts =>
    match procToken env nid attrs t with
    | .error e => .error e
    | .ok (attrs', b) =>
      match procTokens env nid attrs' ts with
      | .error e => .error e
      | .ok (attrs'', bs) => .ok (attrs'', b.toList ++ bs)

mutual

/-- Inherit scan over one node (document order: the element itself, then its
children).  After the token loop the `inherit` marker is removed.  Template
children are invisible to `querySelectorAll`, hence not scanned. -/
def procNode (env : InheritEnv) : Node → Except Unit (Node × List Binding)
  | .text s => .ok (.text s, [])
  | .elem nid tag attrs children =>
    match getAttr attrs "inherit" with
    | none =>
      if tag == "template" then .ok (.elem nid tag attrs children, [])
      else
        match procNodes env children with
        | .error e => .error e
        | .ok (cs, bs) => .ok (.elem nid tag attrs cs, bs)
    | some iv =>
      match procTokens env nid attrs (splitWs iv) with
      | .error e => .error e
      | .ok (attrs', bs) =>
        let attrs'' := removeAttr attrs' "inherit"
        if tag == "template" then .ok (.elem nid tag attrs'' children, bs)
        else
          match procNodes env children with
          | .error e => .error e
          | .ok (cs, bsc) => .ok (.elem nid tag attrs'' cs, bs ++ bsc)

def procNodes (env : InheritEnv) : List Node → Except Unit (List Node × List Binding)
  | [] => .ok ([], [])
  | n :: ns =>
    match procNode env n with
    | .error e => .error e
    | .ok (n', bs) =>
      match procNodes env ns with
      | .error e => .error e
      | .ok (ns', bs') => .ok (n' :: ns', bs ++ bs')

end

/-! ## Instance state and lifecycle callbacks -/

/-- Mutable state of one `FacetComponent` instance: the host's attributes, the
`#localFilters` field, the children of `#root`, and the listeners installed on
the host. -/
structure Inst where
  hostAttrs : Attrs
  filters : List (String × Filter)
  rootChildren : List Node
  bindings : List Binding

/-- A freshly constructed instance: `#localFilters = {...localFilters}`, empty
root, no listeners. -/
def newInst (d : CompDef) (hostAttrs : Attrs) : Inst :=
  { hostAttrs := hostAttrs, filters := d.localFilters, rootChildren := [], bindings := [] }

/-- Model of `connectedCallback`: clone the template content, attach mixin
clones and merge their filters, remove `<script on>` handler scripts, run the
inherit scan, and append everything to `#root`.  Cloning is the identity on
pure trees. -/
def connect (globals : List (String × Filter)) (d : CompDef) (i : Inst) :
    Except Unit Inst :=
  let content := mixContent d
  let filters := mixFilters d i.filters
  let content := removeScriptOn content
  match procNodes { hostAttrs := i.hostAttrs, observeAttrs := d.observeAttrs,
                    locals := filters, globals := globals } content with
  | .error e => .error e
  | .ok (content', bs) =>
    .ok { i with filters := filters,
                 rootChildren := i.rootChildren ++ content',
                 bindings := i.bindings ++ bs }

/-- Model of `disconnectedCallback`: it only emits the `disconnect` event and
performs no cleanup, leaving the instance state untouched. -/
def disconnectedCallback (i : Inst) : Inst := i

/-- Model of `el.setAttribute` applied through a captured element reference:
update every node with the given identity. -/
def setAttrById (nid : Nat) (name v : String) : List Node → List Node
  | [] => []
  | .text s :: ns => .text s :: setAttrById nid name v ns
  | .elem k tag attrs cs :: ns =>
    .elem k tag (if k == nid then setAttr attrs name v else attrs)
      (setAttrById nid name v cs) :: setAttrById nid name v ns

/-- One inheritance listener reacting to an `attributeChanged` event:
`if(name !== ogname) return; el.setAttribute(rename ?? ogname,
filter?.(newValue, oldValue, el, this) ?? newValue)`. -/
def applyBinding (name : String) (old : Option String) (new : String)
    (roots : List Node) (b : Binding) : List Node :=
  if b.ogname == name then
    setAttrById b.targetId b.targetAttr (filteredValue b.filter new old) roots
  else roots

/-- Model of `attributeChangedCallback(name, oldValue, newValue)`: the emitted
`attributeChanged` event runs the installed listeners in registration order.
The platform invokes this only for names in `observedAttributes`. -/
def attributeChangedCallback (i : Inst) (name : String) (old : Option String)
    (new : String) : Inst :=
  { i with rootChildren := i.bindings.foldl (applyBinding name old new) i.rootChildren }

/-! ## Declarative discovery

`discoverDeclarativeComponents` queries for
`template[<ns>mixin]:not([defined])` and `template[<ns>component]:not([defined])`,
processes every match (mixins first, then components) and marks each processed
template with a `defined` attribute.  Template `.content` is invisible to
`querySelectorAll`, so the passes never descend into a `template`'s children;
in particular a template root has no queryable descendants, which also makes
the source's root-`matches` special case coincide with a uniform scan. -/

/-- Runtime configuration (captured once at load). -/
structure Config where
  nsPrefix : String
  defaultShadowMode : String

/-- Interpretation of `new Function('host', 'root', 'value', src)`: how the
host environment turns a filter script's source text into a function. -/
def Interp := String → Filter

/-- Does a node match `template[<ns><kind>]:not([defined])`? -/
def matchesMarker (ns kind : String) : Node → Bool
  | .elem _ tag attrs _ => tag == "template" && hasAttr attrs (ns ++ kind) && !hasAttr attrs "defined"
  | .text _ => false

/-- Model of `discoverLocalFilters`: remove every `script[filter]` from the
template content and collect `(filterName, new Function(...))` pairs in
document order. -/
def extractFilters (interp : Interp) : List Node → List Node × List (String × Filter)
  | [] => ([], [])
  | .text s :: ns =>
    let (ns', fs) := extractFilters interp ns
    (.text s :: ns', fs)
  | .elem k tag attrs cs :: ns =>
    if tag == "script" && hasAttr attrs "filter" then
      let (ns', fs) := extractFilters interp ns
      (ns', ((getAttr attrs "filter").getD "", interp (scriptText cs)) :: fs)
    else if tag == "template" then
      let (ns', fs) := extractFilters interp ns
      (.elem k tag attrs cs :: ns', fs)
    else
      let (cs', fs1) := extractFilters interp cs
      let (ns', fs2) := extractFilters interp ns
      (.elem k tag attrs cs' :: ns', fs1 ++ fs2)

/-- Model of `processMixin`: mark the template `defined`, extract its local
filter scripts, and register the mixin. -/
def processMixin (interp : Interp) (ns : String) (s : FacetState) : Node → FacetState × Node
  | .elem k tag attrs cs =>
    let attrs' := setAttr attrs "defined" "true"
    let (cs', filters) := extractFilters interp cs
    let s' := defineMixin s ((getAttr attrs (ns ++ "mixin")).getD "") cs'
      { applyGlobally := hasAttr attrs "global",
        attachPosition := if hasAttr attrs "prepend" then .prepend else .append,
        localFilters := filters }
    (s', .elem k tag attrs' cs')
  | n => (s, n)

/-- Model of `processComponent`: mark the template `defined`, extract filters,
and register the component (which can throw). -/
def processComponent (interp : Interp) (cfg : Config) (s : FacetState) :
    Node → Except Unit (FacetState × Node)
  | .elem k tag attrs cs =>
    let attrs' := setAttr attrs "defined" "true"
    let (cs', filters) := extractFilters interp cs
    match defineComponent s ((getAttr attrs (cfg.nsPrefix ++ "component")).getD "") cs'
      { shadowMode := ((getAttr attrs "shadow").map String.toLower).getD cfg.defaultShadowMode,
        observeAttrs := ((getAttr attrs "observe").map splitWs).getD [],
        applyMixins := ((getAttr attrs "mixins").map splitWs).getD [],
        localFilters := filters,
        extendsElement := getAttr attrs "extends",
        formAssoc := hasAttr attrs "forminput" } with
    | .error e => .error e
    | .ok s' => .ok (s', .elem k tag attrs' cs')
  | n => .ok (s, n)

mutual

/-- Mixin phase of discovery: process every matching unmarked mixin template
in document order. -/
def mixinPassN (interp : Interp) (cfg : Config) (s : FacetState) :
    Node → FacetState × Node
  | .elem k tag attrs cs =>
    if matchesMarker cfg.nsPrefix "mixin" (.elem k tag attrs cs) then
      processMixin interp cfg.nsPrefix s (.elem k tag attrs cs)
    else if tag == "template" then (s, .elem k tag attrs cs)
    else
      let (s', cs') := mixinPassL interp cfg s cs
      (s', .elem k tag attrs cs')
  | .text t => (s, .text t)

def mixinPassL (interp : Interp) (cfg : Config) (s : FacetState) :
    List Node → FacetState × List Node
  | [] => (s, [])
  | n :: ns =>
    let (s', n') := mixinPassN interp cfg s n
    let (s'', ns') := mixinPassL interp cfg s' ns
    (s'', n' :: ns')

end

mutual

/-- Component phase of discovery: process every matching unmarked component
template in document order; `defineComponent` failures propagate. -/
def cmpntPassN (interp : Interp) (cfg : Config) (s : FacetState) :
    Node → Except Unit (FacetState × Node)
  | .elem k tag attrs cs =>
    if matchesMarker cfg.nsPrefix "component" (.elem k tag attrs cs) then
      processComponent interp cfg s (.elem k tag attrs cs)
    else if tag == "template" then .ok (s, .elem k tag attrs cs)
    else
      match cmpntPassL interp cfg s cs with
      | .error e => .error e
      | .ok (s', cs') => .ok (s', .elem k tag attrs cs')
  | .text t => .ok (s, .text t)

def cmpntPassL (interp : Interp) (cfg : Config) (s : FacetState) :
    List Node → Except Unit (FacetState × List Node)
  | [] => .ok (s, [])
  | n :: ns =>
    match cmpntPassN interp cfg s n with
    | .error e => .error e
    | .ok (s', n') =>
      match cmpntPassL interp cfg s' ns with
      | .error e => .error e
      | .ok (s'', ns') => .ok (s'', n' :: ns')

end

/-- Model of `facet.discoverDeclarativeComponents(root)`: mixin phase first,
then component phase, so forward-referenced mixin names resolve. -/
def discoverDeclarativeComponents (interp : Interp) (cfg : Config)
    (s : FacetState) (root : Node) : Except Unit (FacetState × Node) :=
  let (s1, root1) := mixinPassN interp cfg s root
  cmpntPassN interp cfg s1 root1

/-! ## Structural predicates on content trees -/

/-- No `script[on]` handler script occurs anywhere the handler scan looks. -/
def noScriptOnL : List Node → Bool
  | [] => true
  | .text _ :: ns => noScriptOnL ns
  | .elem _ tag attrs cs :: ns =>
    !(tag == "script" && hasAttr attrs "on") &&
    (tag == "template" || noScriptOnL cs) && noScriptOnL ns

/-- No element carries an `inherit` marker anywhere the inherit scan looks. -/
def noInheritL : List Node → Bool
  | [] => true
  | .text _ :: ns => noInheritL ns
  | .elem _ tag attrs cs :: ns =>
    !hasAttr attrs "inherit" && (tag == "template" || noInheritL cs) && noInheritL ns

/-- No element in the list (at any depth) has the given node identity. -/
def idFreeL (nid : Nat) : List Node → Bool
  | [] => true
  | .text _ :: ns => idFreeL nid ns
  | .elem k _ _ cs :: ns => k != nid && idFreeL nid cs && idFreeL nid ns

theorem getAttr_eq_none_of_hasAttr_false (attrs : Attrs) (n : String)
    (h : hasAttr attrs n = false) : getAttr attrs n = none := by
  induction attrs with
  | nil => rfl
  | cons a rest ih =>
    obtain ⟨k, w⟩ := a
    have hk : (k == n) = false := by
      by_contra hc
      simp [hasAttr, List.any_cons, eq_true_of_ne_false hc] at h
    rw [getAttr_cons, if_neg (by simp [hk])]
    exact ih (by simpa [hasAttr, List.any_cons, hk] using h)

theorem removeScriptOn_of_noScriptOn :
    ∀ ns, noScriptOnL ns = true → removeScriptOn ns = ns
  | [], _ => by simp [removeScriptOn]
  | .text s :: ns, h => by
    simp [removeScriptOn, removeScriptOn_of_noScriptOn ns (by simpa [noScriptOnL] using h)]
  | .elem nid tag attrs cs :: ns, h => by
    rw [noScriptOnL] at h
    simp only [Bool.and_eq_true, Bool.not_eq_true'] at h
    obtain ⟨⟨h1, h2⟩, h3⟩ := h
    by_cases ht : (tag == "template") = true
    · simp [removeScriptOn, h1, ht, removeScriptOn_of_noScriptOn ns h3]
    · have ht' : (tag == "template") = false := by simpa using ht
      simp [removeScriptOn, h1, ht',
            removeScriptOn_of_noScriptOn cs (by simpa [ht'] using h2),
            removeScriptOn_of_noScriptOn ns h3]

theorem setAttrById_of_idFree (nid : Nat) (name v : String) :
    ∀ ns, idFreeL nid ns = true → setAttrById nid name v ns = ns
  | [], _ => by simp [setAttrById]
  | .text s :: ns, h => by
    simp [setAttrById, setAttrById_of_idFree nid name v ns (by simpa [idFreeL] using h)]
  | .elem k tag attrs cs :: ns, h => by
    rw [idFreeL] at h
    simp only [Bool.and_eq_true, bne_iff_ne] at h
    obtain ⟨⟨h1, h2⟩, h3⟩ := h
    simp [setAttrById, h1,
          setAttrById_of_idFree nid name v cs h2,
          setAttrById_of_idFree nid name v ns h3]

theorem procNodes_of_noInherit (env : InheritEnv) :
    ∀ ns, noInheritL ns = true → procNodes env ns = .ok (ns, [])
  | [], _ => by simp [procNodes]
  | .text s :: ns, h => by
    simp [procNodes, procNode, procNodes_of_noInherit env ns (by simpa [noInheritL] using h)]
  | .elem nid tag attrs cs :: ns, h => by
    rw [noInheritL] at h
    simp only [Bool.and_eq_true, Bool.not_eq_true'] at h
    obtain ⟨⟨h1, h2⟩, h3⟩ := h
    have hg := getAttr_eq_none_of_hasAttr_false attrs "inherit" h1
    by_cases ht : (tag == "template") = true
    · simp [procNodes, procNode, hg, ht, procNodes_of_noInherit env ns h3]
    · have ht' : (tag == "template") = false := by simpa using ht
      simp [procNodes, procNode, hg, ht',
            procNodes_of_noInherit env cs (by simpa [ht'] using h2),
            procNodes_of_noInherit env ns h3]

/-! ## Error propagation: a malformed token aborts the whole scan -/

theorem procTokens_error_of_malformed (env : InheritEnv) (nid : Nat) (t : String)
    (hp : parseInheritToken t = none) :
    ∀ ts attrs, t ∈ ts → procTokens env nid attrs ts = .error () := by
  intro ts
  induction ts with
  | nil => intro attrs hmem; cases hmem
  | cons t' ts' ih =>
    intro attrs hmem
    rcases List.mem_cons.mp hmem with he | hm
    · subst he
      simp [procTokens, procToken, hp]
    · rw [procTokens]
      cases hpt : procToken env nid attrs t' with
      | error e => rfl
      | ok p => obtain ⟨attrs', b⟩ := p; simp [ih attrs' hm]

theorem procNode_error_of_malformed (env : InheritEnv) (nid : Nat) (tag : String)
    (attrs : Attrs) (cs : List Node) (iv t : String)
    (hiv : getAttr attrs "inherit" = some iv)
    (ht : t ∈ splitWs iv) (hp : parseInheritToken t = none) :
    procNode env (.elem nid tag attrs cs) = .error () := by
  simp [procNode, hiv, procTokens_error_of_malformed env nid t hp (splitWs iv) attrs ht]

theorem procNodes_error_of_mem (env : InheritEnv) (n : Node)
    (he : procNode env n = .error ()) :
    ∀ ns, n ∈ ns → procNodes env ns = .error () := by
  intro ns
  induction ns with
  | nil => intro hmem; cases hmem
  | cons n' ns' ih =>
    intro hmem
    rcases List.mem_cons.mp hmem with hh | hm
    · subst hh; rw [procNodes, he]
    · rw [procNodes]
      cases hpn : procNode env n' with
      | error e => rfl
      | ok p => obtain ⟨n'', bs⟩ := p; rw [ih hm]

/-- Mixin attachment never loses nodes of the original template content. -/
theorem mem_mixContent (d : CompDef) (n : Node) (h : n ∈ d.template) :
    n ∈ mixContent d := by
  rw [mixContent]
  generalize d.template = start at h ⊢
  induction d.localMixins generalizing start with
  | nil => simpa using h
  | cons m ms ih =>
    rw [List.foldl_cons]
    exact ih (attach m.attachPosition start m.template)
      (by cases m.attachPosition <;> simp [attach, h])

/-- An element of the content survives `script[on]` removal with its
attributes intact (children may have scripts removed). -/
theorem removeScriptOn_mem (nid : Nat) (tag : String) (attrs : Attrs) (cs : List Node)
    (hns : (tag == "script" && hasAttr attrs "on") = false) :
    ∀ ns, Node.elem nid tag attrs cs ∈ ns →
      ∃ cs', Node.elem nid tag attrs cs' ∈ removeScriptOn ns := by
  intro ns
  induction ns with
  | nil => intro hmem; cases hmem
  | cons n' ns' ih =>
    intro hmem
    rcases List.mem_cons.mp hmem with hh | hm
    · subst hh
      by_cases htp : (tag == "template") = true
      · exact ⟨cs, by simp [removeScriptOn, hns, htp]⟩
      · have htp' : (tag == "template") = false := by simpa using htp
        exact ⟨removeScriptOn cs, by simp [removeScriptOn, hns, htp']⟩
    · obtain ⟨cs', hcs'⟩ := ih hm
      refine ⟨cs', ?_⟩
      cases n' with
      | text s =>
        simp only [removeScriptOn]
        exact List.mem_cons_of_mem _ hcs'
      | elem k tg ats ch =>
        by_cases hsc : (tg == "script" && hasAttr ats "on") = true
        · simpa [removeScriptOn, hsc] using hcs'
        · have hsc' : (tg == "script" && hasAttr ats "on") = false := by simpa using hsc
          by_cases htp : (tg == "template") = true
          · simp only [removeScriptOn, hsc', htp, Bool.false_eq_true, if_false, if_true]
            exact List.mem_cons_of_mem _ hcs'
          · have htp' : (tg == "template") = false := by simpa using htp
            simp only [removeScriptOn, hsc', htp', Bool.false_eq_true, if_false]
            exact List.mem_cons_of_mem _ hcs'

/-! ## Connecting an instance whose content is a single inherit-marked element -/

/-- Attribute state of the target element after the connect-time copy of one
parsed token (`if(cv) el.setAttribute(rename ?? ogname, filter?.(cv, undefined,
el, this) ?? cv)`). -/
def tokenAttrs (host : Attrs) (locals globals : List (String × Filter))
    (og : String) (ren fn : Option String) (attrs : Attrs) : Attrs :=
  match getAttr host og with
  | some v =>
    if v != "" then
      setAttr attrs (ren.getD og) (filteredValue (resolveFilter locals globals fn) v none)
    else attrs
  | none => attrs

theorem connect_single (globals : List (String × Filter)) (d : CompDef) (host : Attrs)
    (nid : Nat) (tag : String) (attrs : Attrs) (cs : List Node)
    (t og : String) (ren fn : Option String)
    (hmix : d.localMixins = [])
    (htem : d.template = [.elem nid tag attrs cs])
    (hscr : (tag == "script" && hasAttr attrs "on") = false)
    (htag : (tag == "template") = false)
    (hcsS : noScriptOnL cs = true)
    (hcsI : noInheritL cs = true)
    (hiv : getAttr attrs "inherit" = some t)
    (hsplit : splitWs t = [t])
    (hp : parseInheritToken t = some (og, ren, fn)) :
    connect globals d (newInst d host) = .ok
      { hostAttrs := host
        filters := d.localFilters
        rootChildren := [.elem nid tag
          (removeAttr (tokenAttrs host d.localFilters globals og ren fn attrs) "inherit") cs]
        bindings :=
          if d.observeAttrs.contains og then
            [{ ogname := og, targetAttr := ren.getD og,
               filter := resolveFilter d.localFilters globals fn, targetId := nid }]
          else [] } := by
  have hmc : mixContent d = [Node.elem nid tag attrs cs] := by
    simp [mixContent, hmix, htem]
  have hmf : mixFilters d d.localFilters = d.localFilters := by
    simp [mixFilters, hmix]
  have hrs : removeScriptOn [Node.elem nid tag attrs cs] = [Node.elem nid tag attrs cs] := by
    simp [removeScriptOn, hscr, htag, removeScriptOn_of_noScriptOn cs hcsS]
  by_cases hob : og ∈ d.observeAttrs
  · simp [connect, newInst, hmc, hmf, hrs, procNodes, procNode, hiv, hsplit,
          procTokens, procToken, hp, htag, hob, tokenAttrs,
          procNodes_of_noInherit _ cs hcsI]
  · simp [connect, newInst, hmc, hmf, hrs, procNodes, procNode, hiv, hsplit,
          procTokens, procToken, hp, htag, hob, tokenAttrs,
          procNodes_of_noInherit _ cs hcsI]

theorem tokenAttrs_truthy (host : Attrs) (locals globals : List (String × Filter))
    (og v : String) (ren fn : Option String) (attrs : Attrs)
    (hv : getAttr host og = some v) (hne : v ≠ "") :
    tokenAttrs host locals globals og ren fn attrs =
      setAttr attrs (ren.getD og) (filteredValue (resolveFilter locals globals fn) v none) := by
  simp [tokenAttrs, hv, hne]

theorem tokenAttrs_empty (host : Attrs) (locals globals : List (String × Filter))
    (og : String) (ren fn : Option String) (attrs : Attrs)
    (hv : getAttr host og = some "") :
    tokenAttrs host locals globals og ren fn attrs = attrs := by
  simp [tokenAttrs, hv]

theorem tokenAttrs_absent (host : Attrs) (locals globals : List (String × Filter))
    (og : String) (ren fn : Option String) (attrs : Attrs)
    (hv : getAttr host og = none) :
    tokenAttrs host locals globals og ren fn attrs = attrs := by
  simp [tokenAttrs, hv]

/-! ## Filter tables: lookup only depends on the last binding of each name -/

theorem objGet_append {α : Type} (l m : List (String × α)) (k : String) :
    objGet (l ++ m) k = (objGet m k).orElse (fun _ => objGet l k) := by
  unfold objGet
  rw [List.reverse_append, List.find?_append]
  cases hm : List.find? (fun p => p.1 == k) m.reverse <;> simp [hm]

theorem objGet_append_append {α : Type} (l m : List (String × α)) (k : String) :
    objGet ((l ++ m) ++ m) k = objGet (l ++ m) k := by
  rw [objGet_append, objGet_append]
  cases hm : objGet m k <;> simp [hm]

theorem mixFilters_shift (ms : List MixinDef) (fs : List (String × Filter)) :
    List.foldl (fun f m => f ++ m.localFilters) fs ms =
      fs ++ List.foldl (fun f m => f ++ m.localFilters) [] ms := by
  induction ms generalizing fs with
  | nil => simp
  | cons m ms ih =>
    rw [List.foldl_cons, List.foldl_cons, ih (fs ++ m.localFilters),
        ih ([] ++ m.localFilters)]
    simp

theorem resolveFilter_congr (L1 L2 G : List (String × Filter))
    (h : ∀ k, objGet L1 k = objGet L2 k) (fn : Option String) :
    resolveFilter L1 G fn = resolveFilter L2 G fn := by
  cases fn <;> simp [resolveFilter, h]

theorem procToken_congr (host : Attrs) (obs : List String)
    (L1 L2 G : List (String × Filter)) (h : ∀ k, objGet L1 k = objGet L2 k)
    (nid : Nat) (attrs : Attrs) (t : String) :
    procToken { hostAttrs := host, observeAttrs := obs, locals := L1, globals := G } nid attrs t =
    procToken { hostAttrs := host, observeAttrs := obs, locals := L2, globals := G } nid attrs t := by
  rw [procToken, procToken]
  cases hp : parseInheritToken t with
  | none => rfl
  | some trip =>
    obtain ⟨og, ren, fn⟩ := trip
    simp [resolveFilter_congr L1 L2 G h fn]

theorem procTokens_congr (host : Attrs) (obs : List String)
    (L1 L2 G : List (String × Filter)) (h : ∀ k, objGet L1 k = objGet L2 k)
    (nid : Nat) :
    ∀ ts attrs,
      procTokens { hostAttrs := host, observeAttrs := obs, locals := L1, globals := G } nid attrs ts =
      procTokens { hostAttrs := host, observeAttrs := obs, locals := L2, globals := G } nid attrs ts := by
  intro ts
  induction ts with
  | nil => intro attrs; rfl
  | cons t ts ih =>
    intro attrs
    rw [procTokens, procTokens, procToken_congr host obs L1 L2 G h nid attrs t]
    cases procToken { hostAttrs := host, observeAttrs := obs, locals := L2, globals := G } nid attrs t with
    | error e => rfl
    | ok p => obtain ⟨attrs', b⟩ := p; simp only [ih attrs']

mutual

theorem procNode_congr (host : Attrs) (obs : List String)
    (L1 L2 G : List (String × Filter)) (h : ∀ k, objGet L1 k = objGet L2 k) :
    ∀ n, procNode { hostAttrs := host, observeAttrs := obs, locals := L1, globals := G } n =
         procNode { hostAttrs := host, observeAttrs := obs, locals := L2, globals := G } n
  | .text s => rfl
  | .elem nid tag attrs cs => by
    have hns : procNodes { hostAttrs := host, observeAttrs := obs, locals := L1, globals := G } cs =
        procNodes { hostAttrs := host, observeAttrs := obs, locals := L2, globals := G } cs :=
      procNodes_congr host obs L1 L2 G h cs
    cases hiv : getAttr attrs "inherit" with
    | none => simp only [procNode, hiv, hns]
    | some iv =>
      simp only [procNode, hiv, hns,
        procTokens_congr host obs L1 L2 G h nid (splitWs iv) attrs]

theorem procNodes_congr (host : Attrs) (obs : List String)
    (L1 L2 G : List (String × Filter)) (h : ∀ k, objGet L1 k = objGet L2 k) :
    ∀ ns, procNodes { hostAttrs := host, observeAttrs := obs, locals := L1, globals := G } ns =
          procNodes { hostAttrs := host, observeAttrs := obs, locals := L2, globals := G } ns
  | [] => rfl
  | n :: ns => by
    rw [procNodes, procNodes, procNode_congr host obs L1 L2 G h n,
        procNodes_congr host obs L1 L2 G h ns]

end

/-! ## Discovery: marking and idempotence -/

mutual

/-- Every marker template of the given kind in the scanned region carries the
`defined` attribute. -/
def allMarkedN (np kind : String) : Node → Bool
  | .text _ => true
  | .elem k tag attrs cs =>
    !matchesMarker np kind (.elem k tag attrs cs) && (tag == "template" || allMarkedL np kind cs)

def allMarkedL (np kind : String) : List Node → Bool
  | [] => true
  | n :: ns => allMarkedN np kind n && allMarkedL np kind ns

end

theorem matchesMarker_defined (np kind tag : String) (k : Nat) (attrs : Attrs)
    (cs : List Node) :
    matchesMarker np kind (.elem k tag (setAttr attrs "defined" "true") cs) = false := by
  simp [matchesMarker, hasAttr_setAttr_self]

theorem allMarkedL_mem (np kind : String) :
    ∀ ns (n : Node), allMarkedL np kind ns = true → n ∈ ns → allMarkedN np kind n = true := by
  intro ns
  induction ns with
  | nil => intro n _ hm; cases hm
  | cons m ms ih =>
    intro n h hm
    rw [allMarkedL] at h
    simp only [Bool.and_eq_true] at h
    rcases List.mem_cons.mp hm with he | hmm
    · exact he ▸ h.1
    · exact ih n h.2 hmm

mutual

theorem mixinPass_allMarkedN (interp : Interp) (cfg : Config) :
    ∀ (s : FacetState) (n : Node),
      allMarkedN cfg.nsPrefix "mixin" (mixinPassN interp cfg s n).2 = true
  | s, .text t => by simp [mixinPassN, allMarkedN]
  | s, .elem k tag attrs cs => by
    by_cases hm : matchesMarker cfg.nsPrefix "mixin" (.elem k tag attrs cs) = true
    · have htag : (tag == "template") = true := by
        rw [matchesMarker] at hm
        simp only [Bool.and_eq_true] at hm
        exact hm.1.1
      rw [mixinPassN, if_pos hm, processMixin]
      dsimp only
      rw [allMarkedN]
      simp [matchesMarker_defined, htag]
    · have hm' : matchesMarker cfg.nsPrefix "mixin" (.elem k tag attrs cs) = false := by
        simpa using hm
      by_cases ht : (tag == "template") = true
      · rw [mixinPassN, if_neg (by simp [hm']), if_pos ht]
        dsimp only
        rw [allMarkedN]
        simp [hm', ht]
      · have ht' : (tag == "template") = false := by simpa using ht
        rcases hpl : mixinPassL interp cfg s cs with ⟨s2, cs2⟩
        rw [mixinPassN, if_neg (by simp [hm']), if_neg (by simp [ht']), hpl]
        dsimp only
        rw [allMarkedN]
        simp only [ht', Bool.false_eq_true, Bool.false_or, Bool.and_eq_true,
                   Bool.not_eq_true']
        constructor
        · rw [matchesMarker] at hm' ⊢
          exact hm'
        · have hcs := mixinPass_allMarkedL interp cfg s cs
          rw [hpl] at hcs
          exact hcs

theorem mixinPass_allMarkedL (interp : Interp) (cfg : Config) :
    ∀ (s : FacetState) (ns : List Node),
      allMarkedL cfg.nsPrefix "mixin" (mixinPassL interp cfg s ns).2 = true
  | s, [] => by simp [mixinPassL, allMarkedL]
  | s, n :: ns => by
    have h1 := mixinPass_allMarkedN interp cfg s n
    have h2 := mixinPass_allMarkedL interp cfg (mixinPassN interp cfg s n).1 ns
    simp only [mixinPassL, allMarkedL, Bool.and_eq_true]
    exact ⟨h1, h2⟩

end

mutual

theorem mixinPassN_of_allMarked (interp : Interp) (cfg : Config) :
    ∀ (s : FacetState) (n : Node), allMarkedN cfg.nsPrefix "mixin" n = true →
      mixinPassN interp cfg s n = (s, n)
  | s, .text t, _ => rfl
  | s, .elem k tag attrs cs, h => by
    rw [allMarkedN] at h
    simp only [Bool.and_eq_true, Bool.not_eq_true'] at h
    obtain ⟨h1, h2⟩ := h
    by_cases ht : (tag == "template") = true
    · simp [mixinPassN, h1, ht]
    · have ht' : (tag == "template") = false := by simpa using ht
      have hcs : allMarkedL cfg.nsPrefix "mixin" cs = true := by
        rcases Bool.or_eq_true_iff.mp h2 with hl | hr
        · rw [ht'] at hl; cases hl
        · exact hr
      simp [mixinPassN, h1, ht', mixinPassL_of_allMarked interp cfg s cs hcs]

theorem mixinPassL_of_allMarked (interp : Interp) (cfg : Config) :
    ∀ (s : FacetState) (ns : List Node), allMarkedL cfg.nsPrefix "mixin" ns = true →
      mixinPassL interp cfg s ns = (s, ns)
  | s, [], _ => rfl
  | s, n :: ns, h => by
    rw [allMarkedL] at h
    simp only [Bool.and_eq_true] at h
    simp [mixinPassL, mixinPassN_of_allMarked interp cfg s n h.1,
          mixinPassL_of_allMarked interp cfg s ns h.2]

end

mutual

theorem cmpntPass_allMarkedN (interp : Interp) (cfg : Config) :
    ∀ (s : FacetState) (n : Node) (s' : FacetState) (n' : Node),
      cmpntPassN interp cfg s n = .ok (s', n') →
      allMarkedN cfg.nsPrefix "component" n' = true
  | s, .text t, s', n', h => by
    simp only [cmpntPassN, Except.ok.injEq, Prod.mk.injEq] at h
    rw [← h.2]
    simp [allMarkedN]
  | s, .elem k tag attrs cs, s', n', h => by
    by_cases hm : matchesMarker cfg.nsPrefix "component" (.elem k tag attrs cs) = true
    · have htag : (tag == "template") = true := by
        rw [matchesMarker] at hm
        simp only [Bool.and_eq_true] at hm
        exact hm.1.1
      rw [cmpntPassN, if_pos hm, processComponent] at h
      rcases hef : extractFilters interp cs with ⟨cs', fl⟩
      rw [hef] at h
      dsimp only at h
      cases hd : defineComponent s ((getAttr attrs (cfg.nsPrefix ++ "component")).getD "") cs'
          { shadowMode := ((getAttr attrs "shadow").map String.toLower).getD cfg.defaultShadowMode,
            observeAttrs := ((getAttr attrs "observe").map splitWs).getD [],
            applyMixins := ((getAttr attrs "mixins").map splitWs).getD [],
            localFilters := fl,
            extendsElement := getAttr attrs "extends",
            formAssoc := hasAttr attrs "forminput" } with
      | error e => rw [hd] at h; cases h
      | ok s2 =>
        rw [hd] at h
        dsimp only at h
        simp only [Except.ok.injEq, Prod.mk.injEq] at h
        rw [← h.2]
        rw [allMarkedN]
        simp [matchesMarker_defined, htag]
    · have hm' : matchesMarker cfg.nsPrefix "component" (.elem k tag attrs cs) = false := by
        simpa using hm
      by_cases ht : (tag == "template") = true
      · rw [cmpntPassN, if_neg (by simp [hm']), if_pos ht] at h
        simp only [Except.ok.injEq, Prod.mk.injEq] at h
        rw [← h.2, allMarkedN]
        simp [hm', ht]
      · have ht' : (tag == "template") = false := by simpa using ht
        rw [cmpntPassN, if_neg (by simp [hm']), if_neg (by simp [ht'])] at h
        cases hl : cmpntPassL interp cfg s cs with
        | error e => rw [hl] at h; cases h
        | ok p =>
          obtain ⟨s2, cs2⟩ := p
          rw [hl] at h
          simp only [Except.ok.injEq, Prod.mk.injEq] at h
          rw [← h.2, allMarkedN]
          simp only [ht', Bool.false_eq_true, Bool.false_or, Bool.and_eq_true,
                     Bool.not_eq_true']
          constructor
          · rw [matchesMarker] at hm' ⊢
            exact hm'
          · exact cmpntPass_allMarkedL interp cfg s cs s2 cs2 hl

theorem cmpntPass_allMarkedL (interp : Interp) (cfg : Config) :
    ∀ (s : FacetState) (ns : List Node) (s' : FacetState) (ns' : List Node),
      cmpntPassL interp cfg s ns = .ok (s', ns') →
      allMarkedL cfg.nsPrefix "component" ns' = true
  | s, [], s', ns', h => by
    simp only [cmpntPassL, Except.ok.injEq, Prod.mk.injEq] at h
    rw [← h.2]
    rfl
  | s, n :: ns, s', ns', h => by
    rw [cmpntPassL] at h
    cases hn : cmpntPassN interp cfg s n with
    | error e => rw [hn] at h; cases h
    | ok p =>
      obtain ⟨s1, n1⟩ := p
      rw [hn] at h
      cases hl : cmpntPassL interp cfg s1 ns with
      | error e => simp only [hl] at h; cases h
      | ok q =>
        obtain ⟨s2, ns2⟩ := q
        simp only [hl, Except.ok.injEq, Prod.mk.injEq] at h
        rw [← h.2, allMarkedL]
        simp only [Bool.and_eq_true]
        exact ⟨cmpntPass_allMarkedN interp cfg s n s1 n1 hn,
               cmpntPass_allMarkedL interp cfg s1 ns s2 ns2 hl⟩

end

mutual

theorem cmpntPass_keeps_mixinMarkedN (interp : Interp) (cfg : Config) :
    ∀ (s : FacetState) (n : Node) (s' : FacetState) (n' : Node),
      cmpntPassN interp cfg s n = .ok (s', n') →
      allMarkedN cfg.nsPrefix "mixin" n = true →
      allMarkedN cfg.nsPrefix "mixin" n' = true
  | s, .text t, s', n', h, _ => by
    simp only [cmpntPassN, Except.ok.injEq, Prod.mk.injEq] at h
    rw [← h.2]
    simp [allMarkedN]
  | s, .elem k tag attrs cs, s', n', h, hall => by
    by_cases hm : matchesMarker cfg.nsPrefix "component" (.elem k tag attrs cs) = true
    · have htag : (tag == "template") = true := by
        rw [matchesMarker] at hm
        simp only [Bool.and_eq_true] at hm
        exact hm.1.1
      rw [cmpntPassN, if_pos hm, processComponent] at h
      rcases hef : extractFilters interp cs with ⟨cs', fl⟩
      rw [hef] at h
      dsimp only at h
      cases hd : defineComponent s ((getAttr attrs (cfg.nsPrefix ++ "component")).getD "") cs'
          { shadowMode := ((getAttr attrs "shadow").map String.toLower).getD cfg.defaultShadowMode,
            observeAttrs := ((getAttr attrs "observe").map splitWs).getD [],
            applyMixins := ((getAttr attrs "mixins").map splitWs).getD [],
            localFilters := fl,
            extendsElement := getAttr attrs "extends",
            formAssoc := hasAttr attrs "forminput" } with
      | error e => rw [hd] at h; cases h
      | ok s2 =>
        rw [hd] at h
        dsimp only at h
        simp only [Except.ok.injEq, Prod.mk.injEq] at h
        rw [← h.2]
        rw [allMarkedN]
        simp [matchesMarker_defined, htag]
    · have hm' : matchesMarker cfg.nsPrefix "component" (.elem k tag attrs cs) = false := by
        simpa using hm
      by_cases ht : (tag == "template") = true
      · rw [cmpntPassN, if_neg (by simp [hm']), if_pos ht] at h
        simp only [Except.ok.injEq, Prod.mk.injEq] at h
        rw [← h.2]
        exact hall
      · have ht' : (tag == "template") = false := by simpa using ht
        rw [cmpntPassN, if_neg (by simp [hm']), if_neg (by simp [ht'])] at h
        cases hl : cmpntPassL interp cfg s cs with
        | error e => rw [hl] at h; cases h
        | ok p =>
          obtain ⟨s2, cs2⟩ := p
          rw [hl] at h
          simp only [Except.ok.injEq, Prod.mk.injEq] at h
          rw [allMarkedN] at hall
          simp only [ht', Bool.false_eq_true, Bool.false_or, Bool.and_eq_true,
                     Bool.not_eq_true'] at hall
          rw [← h.2, allMarkedN]
          simp only [ht', Bool.false_eq_true, Bool.false_or, Bool.and_eq_true,
                     Bool.not_eq_true']
          exact ⟨hall.1, cmpntPass_keeps_mixinMarkedL interp cfg s cs s2 cs2 hl hall.2⟩

theorem cmpntPass_keeps_mixinMarkedL (interp : Interp) (cfg : Config) :
    ∀ (s : FacetState) (ns : List Node) (s' : FacetState) (ns' : List Node),
      cmpntPassL interp cfg s ns = .ok (s', ns') →
      allMarkedL cfg.nsPrefix "mixin" ns = true →
      allMarkedL cfg.nsPrefix "mixin" ns' = true
  | s, [], s', ns', h, _ => by
    simp only [cmpntPassL, Except.ok.injEq, Prod.mk.injEq] at h
    rw [← h.2]
    rfl
  | s, n :: ns, s', ns', h, hall => by
    rw [allMarkedL] at hall
    simp only [Bool.and_eq_true] at hall
    rw [cmpntPassL] at h
    cases hn : cmpntPassN interp cfg s n with
    | error e => rw [hn] at h; cases h
    | ok p =>
      obtain ⟨s1, n1⟩ := p
      rw [hn] at h
      cases hl : cmpntPassL interp cfg s1 ns with
      | error e => simp only [hl] at h; cases h
      | ok q =>
        obtain ⟨s2, ns2⟩ := q
        simp only [hl, Except.ok.injEq, Prod.mk.injEq] at h
        rw [← h.2, allMarkedL]
        simp only [Bool.and_eq_true]
        exact ⟨cmpntPass_keeps_mixinMarkedN interp cfg s n s1 n1 hn hall.1,
               cmpntPass_keeps_mixinMarkedL interp cfg s1 ns s2 ns2 hl hall.2⟩

end

mutual

theorem cmpntPassN_of_allMarked (interp : Interp) (cfg : Config) :
    ∀ (s : FacetState) (n : Node), allMarkedN cfg.nsPrefix "component" n = true →
      cmpntPassN interp cfg s n = .ok (s, n)
  | s, .text t, _ => rfl
  | s, .elem k tag attrs cs, h => by
    rw [allMarkedN] at h
    simp only [Bool.and_eq_true, Bool.not_eq_true'] at h
    obtain ⟨h1, h2⟩ := h
    by_cases ht : (tag == "template") = true
    · simp [cmpntPassN, h1, ht]
    · have ht' : (tag == "template") = false := by simpa using ht
      have hcs : allMarkedL cfg.nsPrefix "component" cs = true := by
        rcases Bool.or_eq_true_iff.mp h2 with hl | hr
        · rw [ht'] at hl; cases hl
        · exact hr
      simp [cmpntPassN, h1, ht', cmpntPassL_of_allMarked interp cfg s cs hcs]

theorem cmpntPassL_of_allMarked (interp : Interp) (cfg : Config) :
    ∀ (s : FacetState) (ns : List Node), allMarkedL cfg.nsPrefix "component" ns = true →
      cmpntPassL interp cfg s ns = .ok (s, ns)
  | s, [], _ => rfl
  | s, n :: ns, h => by
    rw [allMarkedL] at h
    simp only [Bool.and_eq_true] at h
    simp [cmpntPassL, cmpntPassN_of_allMarked interp cfg s n h.1,
          cmpntPassL_of_allMarked interp cfg s ns h.2]

end

/-- Subtrees of a document tree, as `discoverDeclarativeComponents` roots reach
them: a node itself, or (recursively) a child of a non-`template` element
(template content is not part of the document). -/
inductive Subtree : Node → Node → Prop where
  | refl (n : Node) : Subtree n n
  | step {u c : Node} (k : Nat) (tag : String) (attrs : Attrs) (cs : List Node) :
      c ∈ cs → (tag == "template") = false → Subtree u c →
      Subtree u (.elem k tag attrs cs)

theorem allMarked_subtree (np kind : String) {u n : Node} (hs : Subtree u n)
    (h : allMarkedN np kind n = true) : allMarkedN np kind u = true := by
  induction hs with
  | refl => exact h
  | step k tag attrs cs hmem htag hsub ih =>
    apply ih
    rw [allMarkedN] at h
    simp only [Bool.and_eq_true] at h
    have hcs : allMarkedL np kind cs = true := by
      rcases Bool.or_eq_true_iff.mp h.2 with hl | hr
      · rw [htag] at hl; cases hl
      · exact hr
    exact allMarkedL_mem np kind cs _ hcs hmem

/-! ## Claims -/

/-- C9: every call to `facet.defineComponent` made before any
`facet.defineMixin` call throws, because `facet.mixins` is only created inside
`defineMixin` (`this.mixins ??= []`) and `defineComponent` starts with
`this.mixins.filter(...)`; in particular discovery over a page with a component
template but no mixin template throws. -/
theorem c9_defineComponent_before_any_mixin_throws :
    (∀ (s : FacetState) (tagName : String) (template : List Node)
       (opts : ComponentOptions), s.mixins = none →
       defineComponent s tagName template opts = .error ()) ∧
    discoverDeclarativeComponents (fun _ => fun v _ => some v)
      { nsPrefix := "", defaultShadowMode := "closed" } initialFacet
      (.elem 0 "body" [] [.elem 1 "template" [("component", "my-tag")] []]) = .error () := by
  constructor
  · intro s tagName template opts h
    simp [defineComponent, h]
  · simp [discoverDeclarativeComponents, mixinPassN, mixinPassL, cmpntPassN, cmpntPassL,
          matchesMarker, processComponent, defineComponent, initialFacet, hasAttr, getAttr,
          extractFilters, List.find?_cons]

theorem c9_witness :
    initialFacet.mixins = none ∧
    defineComponent initialFacet "x-a" []
      { shadowMode := "closed", observeAttrs := [], applyMixins := [],
        localFilters := [], extendsElement := none, formAssoc := false } = .error () :=
  ⟨rfl, c9_defineComponent_before_any_mixin_throws.1 initialFacet "x-a" [] _ rfl⟩

/-- C8: a component with no mixins applied (and none registered globally),
whose template holds no `script[on]` handler scripts and no `inherit`-marked
elements, connects to content structurally identical to the static template
content, with no listeners installed. -/
theorem c8_round_trip (globals : List (String × Filter)) (host : Attrs) (d : CompDef)
    (hmix : d.localMixins = [])
    (hscr : noScriptOnL d.template = true)
    (hinh : noInheritL d.template = true) :
    connect globals d (newInst d host) = .ok
      { hostAttrs := host, filters := d.localFilters,
        rootChildren := d.template, bindings := [] } := by
  have hmc : mixContent d = d.template := by simp [mixContent, hmix]
  have hmf : mixFilters d d.localFilters = d.localFilters := by simp [mixFilters, hmix]
  simp [connect, newInst, hmc, hmf, removeScriptOn_of_noScriptOn d.template hscr,
        procNodes_of_noInherit _ d.template hinh]

def c8d : CompDef :=
  { tagName := "x-static", template := [.elem 1 "div" [("class", "a")] [.text "hi"]],
    shadowMode := "closed", observeAttrs := [], localMixins := [], localFilters := [],
    extendsElement := none, formAssoc := false }

theorem c8_witness :
    connect [] c8d (newInst c8d [("x", "1")]) = .ok
      { hostAttrs := [("x", "1")], filters := [],
        rootChildren := [.elem 1 "div" [("class", "a")] [.text "hi"]], bindings := [] } :=
  c8_round_trip [] [("x", "1")] c8d rfl
    (by simp [c8d, noScriptOnL, hasAttr]) (by simp [c8d, noInheritL, hasAttr])

def c2d : CompDef :=
  { tagName := "x-mal", template := [.elem 1 "div" [("inherit", "=")] []],
    shadowMode := "closed", observeAttrs := [], localMixins := [], localFilters := [],
    extendsElement := none, formAssoc := false }

/-- C2 counterexample: a malformed inherit token (here `=`, which the
mini-syntax regex rejects) makes `connectedCallback` throw — the destructuring
of the failed `match` raises a `TypeError` — instead of being skipped. -/
theorem c2_counterexample :
    connect [] c2d (newInst c2d []) = .error () := by
  have hp : parseInheritToken "=" = none := rfl
  have hs : splitWs "=" = ["="] := by decide
  simp [connect, c2d, newInst, mixContent, mixFilters, removeScriptOn, hasAttr,
        procNodes, procNode, procTokens, procToken, getAttr, List.find?_cons, hs, hp]

/-- C2 amended: a token of an `inherit` attribute that does not match the
mini-syntax `source[>rename][/filterName]` makes the whole connection throw
(the regex `match` returns `null` and its destructuring raises a `TypeError`),
so the remaining tokens and remaining inherit-marked elements of that
connection are not processed; the malformed token is not a no-op. -/
theorem c2_malformed_token_throws (globals : List (String × Filter)) (d : CompDef)
    (host : Attrs) (nid : Nat) (tag : String) (attrs : Attrs) (cs : List Node)
    (iv t : String)
    (hmem : Node.elem nid tag attrs cs ∈ d.template)
    (hns : (tag == "script" && hasAttr attrs "on") = false)
    (hiv : getAttr attrs "inherit" = some iv)
    (ht : t ∈ splitWs iv)
    (hp : parseInheritToken t = none) :
    connect globals d (newInst d host) = .error () := by
  obtain ⟨cs', hmem'⟩ := removeScriptOn_mem nid tag attrs cs hns (mixContent d)
    (mem_mixContent d _ hmem)
  have hpe := procNode_error_of_malformed
      { hostAttrs := host, observeAttrs := d.observeAttrs,
        locals := mixFilters d d.localFilters, globals := globals }
      nid tag attrs cs' iv t hiv ht hp
  have hall := procNodes_error_of_mem _ _ hpe (removeScriptOn (mixContent d)) hmem'
  simp [connect, newInst, hall]

def c2wd : CompDef :=
  { tagName := "x-w",
    template := [.text "x", .elem 5 "div" [("id", "z"), ("inherit", "a b>")] []],
    shadowMode := "closed", observeAttrs := ["a"], localMixins := [], localFilters := [],
    extendsElement := none, formAssoc := false }

theorem c2_witness :
    connect [] c2wd (newInst c2wd [("a", "1")]) = .error () :=
  c2_malformed_token_throws [] c2wd [("a", "1")] 5 "div"
    [("id", "z"), ("inherit", "a b>")] [] "a b>" "b>"
    (by simp [c2wd]) (by decide) (by decide) (by decide) rfl

def c3da : CompDef :=
  { tagName := "x-a", template := [.elem 1 "div" [("inherit", "a")] []],
    shadowMode := "closed", observeAttrs := [], localMixins := [], localFilters := [],
    extendsElement := none, formAssoc := false }

def c3db : CompDef :=
  { tagName := "x-b", template := [.elem 2 "div" [("inherit", "a>inherit")] []],
    shadowMode := "closed", observeAttrs := [], localMixins := [], localFilters := [],
    extendsElement := none, formAssoc := false }

/-- C3 counterexample: two failures of the claim as stated.  With host
attribute `a=""` (a present attribute whose value is the empty string) no
attribute is set on the target, because `if(cv)` treats `""` as falsy; and
with token `a>inherit` the copied attribute is named `inherit`, so the final
`el.removeAttribute('inherit')` deletes the value that was just set. -/
theorem c3_counterexample :
    (connect [] c3da (newInst c3da [("a", "")]) = .ok
       { hostAttrs := [("a", "")], filters := [],
         rootChildren := [.elem 1 "div" [] []], bindings := [] }) ∧
    (connect [] c3db (newInst c3db [("a", "v")]) = .ok
       { hostAttrs := [("a", "v")], filters := [],
         rootChildren := [.elem 2 "div" [] []], bindings := [] }) := by
  have hs1 : splitWs "a" = ["a"] := by decide
  have hp1 : parseInheritToken "a" = some ("a", none, none) := rfl
  have hs2 : splitWs "a>inherit" = ["a>inherit"] := by decide
  have hp2 : parseInheritToken "a>inherit" = some ("a", some "inherit", none) := rfl
  constructor
  · simp [connect, c3da, newInst, mixContent, mixFilters, removeScriptOn, hasAttr,
          procNodes, procNode, procTokens, procToken, getAttr, List.find?_cons, hs1, hp1,
          resolveFilter, filteredValue, removeAttr, List.filter]
  · simp [connect, c3db, newInst, mixContent, mixFilters, removeScriptOn, hasAttr,
          procNodes, procNode, procTokens, procToken, getAttr, List.find?_cons, hs2, hp2,
          resolveFilter, filteredValue, removeAttr, setAttr, List.filter]

/-- C3 amended: for an inheritance token `og[>ren][/fn]` on a target element,
if the host carries attribute `og` with a NONEMPTY value `v` at connect time
and the bound target attribute (`ren`, default `og`) is not the `inherit`
marker itself, connecting sets the target attribute to the filtered value:
`fn` absent copies `v` verbatim, a resolved filter returning `w` yields `w`;
and the `inherit` marker attribute is removed from the target. -/
theorem c3_inherit_token_copy (globals : List (String × Filter)) (d : CompDef)
    (host : Attrs) (nid : Nat) (tag : String) (attrs : Attrs) (cs : List Node)
    (t og v : String) (ren fn : Option String)
    (hmix : d.localMixins = [])
    (htem : d.template = [.elem nid tag attrs cs])
    (hscr : (tag == "script" && hasAttr attrs "on") = false)
    (htag : (tag == "template") = false)
    (hcsS : noScriptOnL cs = true)
    (hcsI : noInheritL cs = true)
    (hiv : getAttr attrs "inherit" = some t)
    (hsplit : splitWs t = [t])
    (hp : parseInheritToken t = some (og, ren, fn))
    (hv : getAttr host og = some v)
    (hvne : v ≠ "")
    (htgt : ren.getD og ≠ "inherit") :
    ∃ i cattrs, connect globals d (newInst d host) = .ok i ∧
      i.rootChildren = [.elem nid tag cattrs cs] ∧
      getAttr cattrs (ren.getD og) =
        some (filteredValue (resolveFilter d.localFilters globals fn) v none) ∧
      (fn = none → getAttr cattrs (ren.getD og) = some v) ∧
      (∀ f w, resolveFilter d.localFilters globals fn = some f → f v none = some w →
        getAttr cattrs (ren.getD og) = some w) ∧
      getAttr cattrs "inherit" = none := by
  have hc := connect_single globals d host nid tag attrs cs t og ren fn
      hmix htem hscr htag hcsS hcsI hiv hsplit hp
  rw [tokenAttrs_truthy host d.localFilters globals og v ren fn attrs hv hvne] at hc
  refine ⟨_, _, hc, rfl, ?_, ?_, ?_, ?_⟩
  · rw [getAttr_removeAttr_ne _ _ _ htgt, getAttr_setAttr_self]
  · intro hfn
    subst hfn
    rw [getAttr_removeAttr_ne _ _ _ htgt, getAttr_setAttr_self]
    simp [resolveFilter, filteredValue]
  · intro f w hrf hfw
    rw [getAttr_removeAttr_ne _ _ _ htgt, getAttr_setAttr_self, hrf]
    simp [filteredValue, hfw]
  · exact getAttr_removeAttr_self _ _

def c3wf : Filter := fun v _ => some (v ++ "!")

def c3wd : CompDef :=
  { tagName := "x-c3", template := [.elem 1 "span" [("inherit", "a>b/f")] []],
    shadowMode := "closed", observeAttrs := [], localMixins := [],
    localFilters := [("f", c3wf)], extendsElement := none, formAssoc := false }

theorem c3_witness :
    ∃ i cattrs, connect [] c3wd (newInst c3wd [("a", "x")]) = .ok i ∧
      i.rootChildren = [.elem 1 "span" cattrs []] ∧
      getAttr cattrs ((some "b").getD "a") =
        some (filteredValue (resolveFilter c3wd.localFilters [] (some "f")) "x" none) ∧
      ((some "f" : Option String) = none → getAttr cattrs ((some "b").getD "a") = some "x") ∧
      (∀ f w, resolveFilter c3wd.localFilters [] (some "f") = some f → f "x" none = some w →
        getAttr cattrs ((some "b").getD "a") = some w) ∧
      getAttr cattrs "inherit" = none :=
  c3_inherit_token_copy [] c3wd [("a", "x")] 1 "span" [("inherit", "a>b/f")] []
    "a>b/f" "a" "x" (some "b") (some "f")
    rfl rfl (by decide) (by decide) (by simp [noScriptOnL]) (by simp [noInheritL])
    rfl (by decide) rfl rfl (by decide) (by decide)

/-- C4: for an inheritance token whose source attribute `og` is observed,
connecting installs a listener, and every subsequent `attributeChangedCallback`
for `og` re-sets the target's bound attribute to the filtered new value; the
filter resolved at connect time is called with both the new and the old
value. -/
theorem c4_observed_attribute_sync (globals : List (String × Filter)) (d : CompDef)
    (host : Attrs) (nid : Nat) (tag : String) (attrs : Attrs) (cs : List Node)
    (t og : String) (ren fn : Option String)
    (hmix : d.localMixins = [])
    (htem : d.template = [.elem nid tag attrs cs])
    (hscr : (tag == "script" && hasAttr attrs "on") = false)
    (htag : (tag == "template") = false)
    (hcsS : noScriptOnL cs = true)
    (hcsI : noInheritL cs = true)
    (hiv : getAttr attrs "inherit" = some t)
    (hsplit : splitWs t = [t])
    (hp : parseInheritToken t = some (og, ren, fn))
    (hobs : og ∈ d.observeAttrs)
    (hid : idFreeL nid cs = true) :
    ∃ i cattrs, connect globals d (newInst d host) = .ok i ∧
      i.rootChildren = [.elem nid tag cattrs cs] ∧
      i.bindings = [{ ogname := og, targetAttr := ren.getD og,
                      filter := resolveFilter d.localFilters globals fn, targetId := nid }] ∧
      (∀ old new, ∃ cattrs2,
        (attributeChangedCallback i og old new).rootChildren = [.elem nid tag cattrs2 cs] ∧
        getAttr cattrs2 (ren.getD og) =
          some (filteredValue (resolveFilter d.localFilters globals fn) new old) ∧
        (∀ f, resolveFilter d.localFilters globals fn = some f →
          getAttr cattrs2 (ren.getD og) = some ((f new old).getD new))) := by
  have hob' : d.observeAttrs.contains og = true := by simpa using hobs
  have hc := connect_single globals d host nid tag attrs cs t og ren fn
      hmix htem hscr htag hcsS hcsI hiv hsplit hp
  simp only [hob', if_true] at hc
  refine ⟨_, _, hc, rfl, rfl, ?_⟩
  intro old new
  refine ⟨setAttr (removeAttr (tokenAttrs host d.localFilters globals og ren fn attrs) "inherit")
      (ren.getD og) (filteredValue (resolveFilter d.localFilters globals fn) new old),
    ?_, ?_, ?_⟩
  · simp [attributeChangedCallback, applyBinding, setAttrById,
          setAttrById_of_idFree nid _ _ cs hid]
  · exact getAttr_setAttr_self _ _ _
  · intro f hrf
    rw [getAttr_setAttr_self, hrf]
    simp [filteredValue]

def c4wf : Filter := fun v old => some (v ++ "|" ++ old.getD "-")

def c4wd : CompDef :=
  { tagName := "x-c4", template := [.elem 3 "span" [("inherit", "a/f")] []],
    shadowMode := "closed", observeAttrs := ["a"], localMixins := [],
    localFilters := [("f", c4wf)], extendsElement := none, formAssoc := false }

theorem c4_witness :
    ∃ i cattrs, connect [] c4wd (newInst c4wd [("a", "x")]) = .ok i ∧
      i.rootChildren = [.elem 3 "span" cattrs []] ∧
      i.bindings = [{ ogname := "a", targetAttr := (none : Option String).getD "a",
                      filter := resolveFilter c4wd.localFilters [] (some "f"), targetId := 3 }] ∧
      (∀ old new, ∃ cattrs2,
        (attributeChangedCallback i "a" old new).rootChildren = [.elem 3 "span" cattrs2 []] ∧
        getAttr cattrs2 ((none : Option String).getD "a") =
          some (filteredValue (resolveFilter c4wd.localFilters [] (some "f")) new old) ∧
        (∀ f, resolveFilter c4wd.localFilters [] (some "f") = some f →
          getAttr cattrs2 ((none : Option String).getD "a") = some ((f new old).getD new))) :=
  c4_observed_attribute_sync [] c4wd [("a", "x")] 3 "span" [("inherit", "a/f")] []
    "a/f" "a" none (some "f")
    rfl rfl (by decide) (by decide) (by simp [noScriptOnL]) (by simp [noInheritL])
    rfl (by decide) rfl (by decide) (by simp [idFreeL])

/-- C5: if the host attribute named by the token has no value at connect time,
no attribute is set on the target initially (its attributes are exactly the
originals minus the `inherit` marker), but when the source attribute is
observed the listener is still installed, so a later change sets the target's
bound attribute to the filtered new value. -/
theorem c5_absent_value_live_sync (globals : List (String × Filter)) (d : CompDef)
    (host : Attrs) (nid : Nat) (tag : String) (attrs : Attrs) (cs : List Node)
    (t og : String) (ren fn : Option String)
    (hmix : d.localMixins = [])
    (htem : d.template = [.elem nid tag attrs cs])
    (hscr : (tag == "script" && hasAttr attrs "on") = false)
    (htag : (tag == "template") = false)
    (hcsS : noScriptOnL cs = true)
    (hcsI : noInheritL cs = true)
    (hiv : getAttr attrs "inherit" = some t)
    (hsplit : splitWs t = [t])
    (hp : parseInheritToken t = some (og, ren, fn))
    (hv : getAttr host og = none)
    (hobs : og ∈ d.observeAttrs)
    (hid : idFreeL nid cs = true) :
    ∃ i, connect globals d (newInst d host) = .ok i ∧
      i.rootChildren = [.elem nid tag (removeAttr attrs "inherit") cs] ∧
      i.bindings = [{ ogname := og, targetAttr := ren.getD og,
                      filter := resolveFilter d.localFilters globals fn, targetId := nid }] ∧
      (∀ old new, ∃ cattrs2,
        (attributeChangedCallback i og old new).rootChildren = [.elem nid tag cattrs2 cs] ∧
        getAttr cattrs2 (ren.getD og) =
          some (filteredValue (resolveFilter d.localFilters globals fn) new old)) := by
  have hob' : d.observeAttrs.contains og = true := by simpa using hobs
  have hc := connect_single globals d host nid tag attrs cs t og ren fn
      hmix htem hscr htag hcsS hcsI hiv hsplit hp
  rw [tokenAttrs_absent host d.localFilters globals og ren fn attrs hv] at hc
  simp only [hob', if_true] at hc
  refine ⟨_, hc, rfl, rfl, ?_⟩
  intro old new
  refine ⟨setAttr (removeAttr attrs "inherit") (ren.getD og)
      (filteredValue (resolveFilter d.localFilters globals fn) new old), ?_, ?_⟩
  · simp [attributeChangedCallback, applyBinding, setAttrById,
          setAttrById_of_idFree nid _ _ cs hid]
  · exact getAttr_setAttr_self _ _ _

def c5wd : CompDef :=
  { tagName := "x-c5", template := [.elem 4 "span" [("inherit", "a>b")] []],
    shadowMode := "closed", observeAttrs := ["a"], localMixins := [],
    localFilters := [], extendsElement := none, formAssoc := false }

theorem c5_witness :
    ∃ i, connect [] c5wd (newInst c5wd [("c", "1")]) = .ok i ∧
      i.rootChildren = [.elem 4 "span" (removeAttr [("inherit", "a>b")] "inherit") []] ∧
      i.bindings = [{ ogname := "a", targetAttr := (some "b").getD "a",
                      filter := resolveFilter c5wd.localFilters [] none, targetId := 4 }] ∧
      (∀ old new, ∃ cattrs2,
        (attributeChangedCallback i "a" old new).rootChildren = [.elem 4 "span" cattrs2 []] ∧
        getAttr cattrs2 ((some "b").getD "a") =
          some (filteredValue (resolveFilter c5wd.localFilters [] none) new old)) :=
  c5_absent_value_live_sync [] c5wd [("c", "1")] 4 "span" [("inherit", "a>b")] []
    "a>b" "a" (some "b") none
    rfl rfl (by decide) (by decide) (by simp [noScriptOnL]) (by simp [noInheritL])
    rfl (by decide) rfl rfl (by decide) (by simp [idFreeL])

/-- C6: at the connect-time copy and at every change-time re-copy, a filter
name resolves first in the instance's local filter table, else as a same-named
function in the global scope; if neither resolves, the raw attribute value is
set unfiltered. -/
theorem c6_filter_resolution_order (globals : List (String × Filter)) (d : CompDef)
    (host : Attrs) (nid : Nat) (tag : String) (attrs : Attrs) (cs : List Node)
    (t og v fname : String) (ren : Option String)
    (hmix : d.localMixins = [])
    (htem : d.template = [.elem nid tag attrs cs])
    (hscr : (tag == "script" && hasAttr attrs "on") = false)
    (htag : (tag == "template") = false)
    (hcsS : noScriptOnL cs = true)
    (hcsI : noInheritL cs = true)
    (hiv : getAttr attrs "inherit" = some t)
    (hsplit : splitWs t = [t])
    (hp : parseInheritToken t = some (og, ren, some fname))
    (hv : getAttr host og = some v)
    (hvne : v ≠ "")
    (htgt : ren.getD og ≠ "inherit")
    (hobs : og ∈ d.observeAttrs)
    (hid : idFreeL nid cs = true) :
    ∃ i cattrs, connect globals d (newInst d host) = .ok i ∧
      i.rootChildren = [.elem nid tag cattrs cs] ∧
      (∀ f, objGet d.localFilters fname = some f →
        getAttr cattrs (ren.getD og) = some ((f v none).getD v) ∧
        ∀ old new, ∃ cattrs2,
          (attributeChangedCallback i og old new).rootChildren = [.elem nid tag cattrs2 cs] ∧
          getAttr cattrs2 (ren.getD og) = some ((f new old).getD new)) ∧
      (objGet d.localFilters fname = none → ∀ g, objGet globals fname = some g →
        getAttr cattrs (ren.getD og) = some ((g v none).getD v) ∧
        ∀ old new, ∃ cattrs2,
          (attributeChangedCallback i og old new).rootChildren = [.elem nid tag cattrs2 cs] ∧
          getAttr cattrs2 (ren.getD og) = some ((g new old).getD new)) ∧
      (objGet d.localFilters fname = none → objGet globals fname = none →
        getAttr cattrs (ren.getD og) = some v ∧
        ∀ old new, ∃ cattrs2,
          (attributeChangedCallback i og old new).rootChildren = [.elem nid tag cattrs2 cs] ∧
          getAttr cattrs2 (ren.getD og) = some new) := by
  have hob' : d.observeAttrs.contains og = true := by simpa using hobs
  have hc := connect_single globals d host nid tag attrs cs t og ren (some fname)
      hmix htem hscr htag hcsS hcsI hiv hsplit hp
  rw [tokenAttrs_truthy host d.localFilters globals og v ren (some fname) attrs hv hvne] at hc
  simp only [hob', if_true] at hc
  have hchange : ∀ old new,
      (attributeChangedCallback
        { hostAttrs := host, filters := d.localFilters,
          rootChildren := [.elem nid tag (removeAttr
            (setAttr attrs (ren.getD og)
              (filteredValue (resolveFilter d.localFilters globals (some fname)) v none))
            "inherit") cs],
          bindings := [{ ogname := og, targetAttr := ren.getD og,
                         filter := resolveFilter d.localFilters globals (some fname),
                         targetId := nid }] } og old new).rootChildren =
      [.elem nid tag (setAttr (removeAttr
          (setAttr attrs (ren.getD og)
            (filteredValue (resolveFilter d.localFilters globals (some fname)) v none))
          "inherit") (ren.getD og)
          (filteredValue (resolveFilter d.localFilters globals (some fname)) new old)) cs] := by
    intro old new
    simp [attributeChangedCallback, applyBinding, setAttrById,
          setAttrById_of_idFree nid _ _ cs hid]
  refine ⟨_, _, hc, rfl, ?_, ?_, ?_⟩
  · intro f hf
    have hrf : resolveFilter d.localFilters globals (some fname) = some f := by
      simp [resolveFilter, hf]
    constructor
    · rw [getAttr_removeAttr_ne _ _ _ htgt, getAttr_setAttr_self, hrf]
      simp [filteredValue]
    · intro old new
      refine ⟨_, hchange old new, ?_⟩
      rw [getAttr_setAttr_self, hrf]
      simp [filteredValue]
  · intro hf g hg
    have hrf : resolveFilter d.localFilters globals (some fname) = some g := by
      simp [resolveFilter, hf, hg, Option.orElse]
    constructor
    · rw [getAttr_removeAttr_ne _ _ _ htgt, getAttr_setAttr_self, hrf]
      simp [filteredValue]
    · intro old new
      refine ⟨_, hchange old new, ?_⟩
      rw [getAttr_setAttr_self, hrf]
      simp [filteredValue]
  · intro hf hg
    have hrf : resolveFilter d.localFilters globals (some fname) = none := by
      simp [resolveFilter, hf, hg, Option.orElse]
    constructor
    · rw [getAttr_removeAttr_ne _ _ _ htgt, getAttr_setAttr_self, hrf]
      simp [filteredValue]
    · intro old new
      refine ⟨_, hchange old new, ?_⟩
      rw [getAttr_setAttr_self, hrf]
      simp [filteredValue]

def c6lf : Filter := fun v _ => some (v ++ "L")

def c6gf : Filter := fun v _ => some (v ++ "G")

def c6wd : CompDef :=
  { tagName := "x-c6", template := [.elem 7 "span" [("inherit", "a/f")] []],
    shadowMode := "closed", observeAttrs := ["a"], localMixins := [],
    localFilters := [("f", c6lf)], extendsElement := none, formAssoc := false }

theorem c6_witness :
    ∃ i cattrs, connect [("f", c6gf)] c6wd (newInst c6wd [("a", "x")]) = .ok i ∧
      i.rootChildren = [.elem 7 "span" cattrs []] ∧
      (∀ f, objGet c6wd.localFilters "f" = some f →
        getAttr cattrs ((none : Option String).getD "a") = some ((f "x" none).getD "x") ∧
        ∀ old new, ∃ cattrs2,
          (attributeChangedCallback i "a" old new).rootChildren = [.elem 7 "span" cattrs2 []] ∧
          getAttr cattrs2 ((none : Option String).getD "a") = some ((f new old).getD new)) ∧
      (objGet c6wd.localFilters "f" = none → ∀ g, objGet [("f", c6gf)] "f" = some g →
        getAttr cattrs ((none : Option String).getD "a") = some ((g "x" none).getD "x") ∧
        ∀ old new, ∃ cattrs2,
          (attributeChangedCallback i "a" old new).rootChildren = [.elem 7 "span" cattrs2 []] ∧
          getAttr cattrs2 ((none : Option String).getD "a") = some ((g new old).getD new)) ∧
      (objGet c6wd.localFilters "f" = none → objGet [("f", c6gf)] "f" = none →
        getAttr cattrs ((none : Option String).getD "a") = some "x" ∧
        ∀ old new, ∃ cattrs2,
          (attributeChangedCallback i "a" old new).rootChildren = [.elem 7 "span" cattrs2 []] ∧
          getAttr cattrs2 ((none : Option String).getD "a") = some new) :=
  c6_filter_resolution_order [("f", c6gf)] c6wd [("a", "x")] 7 "span"
    [("inherit", "a/f")] [] "a/f" "a" "x" "f" none
    rfl rfl (by decide) (by decide) (by simp [noScriptOnL]) (by simp [noInheritL])
    rfl (by decide) rfl rfl (by decide) (by decide) (by decide) (by simp [idFreeL])

/-- C10: `connectedCallback` always appends a freshly assembled content tree to
`#root` without removing earlier content, and `disconnectedCallback` removes
nothing, so after a disconnect-and-reconnect cycle the root holds two complete
copies of the assembled content. -/
theorem c10_reconnect_duplicates_content (globals : List (String × Filter))
    (d : CompDef) (host : Attrs) (i1 : Inst)
    (h1 : connect globals d (newInst d host) = .ok i1) :
    ∃ i2, connect globals d (disconnectedCallback i1) = .ok i2 ∧
      i2.rootChildren = i1.rootChildren ++ i1.rootChildren := by
  simp only [connect, newInst] at h1
  cases hpn : procNodes ⟨host, d.observeAttrs, mixFilters d d.localFilters, globals⟩
      (removeScriptOn (mixContent d)) with
  | error e => rw [hpn] at h1; cases h1
  | ok p =>
    obtain ⟨c, bs⟩ := p
    rw [hpn] at h1
    simp only [Except.ok.injEq] at h1
    have hobj : ∀ k, objGet (mixFilters d (mixFilters d d.localFilters)) k =
        objGet (mixFilters d d.localFilters) k := by
      intro k
      unfold mixFilters
      rw [mixFilters_shift d.localMixins d.localFilters,
          mixFilters_shift d.localMixins
            (d.localFilters ++ List.foldl (fun f m => f ++ m.localFilters) [] d.localMixins)]
      exact objGet_append_append _ _ k
    have hpc : procNodes
        ⟨host, d.observeAttrs, mixFilters d (mixFilters d d.localFilters), globals⟩
        (removeScriptOn (mixContent d)) = .ok (c, bs) := by
      rw [procNodes_congr host d.observeAttrs _ _ globals hobj, hpn]
    subst h1
    refine ⟨{ hostAttrs := host, filters := mixFilters d (mixFilters d d.localFilters),
              rootChildren := ([] ++ c) ++ c, bindings := ([] ++ bs) ++ bs }, ?_, by simp⟩
    simp [disconnectedCallback, connect, hpc]

def c10d : CompDef :=
  { tagName := "x-c10", template := [.elem 9 "p" [] [.text "body"]],
    shadowMode := "closed", observeAttrs := [], localMixins := [], localFilters := [],
    extendsElement := none, formAssoc := false }

theorem c10_witness :
    connect [] c10d (newInst c10d []) = .ok
      { hostAttrs := [], filters := [], rootChildren := [.elem 9 "p" [] [.text "body"]],
        bindings := [] } ∧
    ∃ i2, connect [] c10d (disconnectedCallback
        { hostAttrs := [], filters := [], rootChildren := [.elem 9 "p" [] [.text "body"]],
          bindings := [] }) = .ok i2 ∧
      i2.rootChildren = [.elem 9 "p" [] [.text "body"], .elem 9 "p" [] [.text "body"]] := by
  have h1 : connect [] c10d (newInst c10d []) = .ok
      { hostAttrs := [], filters := [], rootChildren := [.elem 9 "p" [] [.text "body"]],
        bindings := [] } := by
    simp [connect, c10d, newInst, mixContent, mixFilters, removeScriptOn, hasAttr,
          procNodes, procNode, getAttr, List.find?_cons]
  refine ⟨h1, ?_⟩
  obtain ⟨i2, h2, h3⟩ := c10_reconnect_duplicates_content [] c10d [] _ h1
  exact ⟨i2, h2, h3⟩

/-- C1 counterexample: `facet.mixins` is an array that `defineMixin` pushes
onto, so after two registrations under the name `m` the registry holds TWO
entries for `m` (refuting "at most one", "last wins"), and a component applying
`m` receives BOTH fragments (refuting "exactly one fragment"). -/
theorem c1_counterexample :
    ¬((((defineMixin (defineMixin initialFacet "m" [.text "A"]
            { applyGlobally := false, attachPosition := .append, localFilters := [] })
          "m" [.text "B"]
            { applyGlobally := false, attachPosition := .append, localFilters := [] }).mixins.getD
          []).filter (fun m => m.name == "m")).length ≤ 1) ∧
    (∃ s3 dC,
      defineComponent
        (defineMixin (defineMixin initialFacet "m" [.text "A"]
            { applyGlobally := false, attachPosition := .append, localFilters := [] })
          "m" [.text "B"]
            { applyGlobally := false, attachPosition := .append, localFilters := [] })
        "x-c" [.text "T"]
        { shadowMode := "closed", observeAttrs := [], applyMixins := ["m"],
          localFilters := [], extendsElement := none, formAssoc := false } = .ok s3 ∧
      s3.components = [("x-c", dC)] ∧
      mixContent dC = [.text "T", .text "A", .text "B"]) := by
  constructor
  · simp [defineMixin, initialFacet]
  · exact ⟨_, _, rfl, rfl, rfl⟩

/-- C1 amended: the mixin registry is a list, not a keyed map: both
registrations under the same name are kept, in registration order, and a
component applying that mixin name receives one fragment per registration,
attached in order at each registration's declared position. -/
theorem c1_all_registrations_apply (name : String) (t1 t2 : List Node)
    (o1 o2 : MixinOptions) (tagName sm : String) (tmpl : List Node)
    (lf : List (String × Filter)) (ext : Option String)
    (obs : List String) (fa : Bool) :
    ∃ s3 dC,
      (defineMixin (defineMixin initialFacet name t1 o1) name t2 o2).mixins =
        some [{ name := name, template := t1, applyGlobally := o1.applyGlobally,
                attachPosition := o1.attachPosition, localFilters := o1.localFilters },
              { name := name, template := t2, applyGlobally := o2.applyGlobally,
                attachPosition := o2.attachPosition, localFilters := o2.localFilters }] ∧
      defineComponent (defineMixin (defineMixin initialFacet name t1 o1) name t2 o2)
        tagName tmpl
        { shadowMode := sm, observeAttrs := obs, applyMixins := [name],
          localFilters := lf, extendsElement := ext, formAssoc := fa } = .ok s3 ∧
      s3.components = [(tagName, dC)] ∧
      dC.localMixins =
        [{ name := name, template := t1, applyGlobally := o1.applyGlobally,
           attachPosition := o1.attachPosition, localFilters := o1.localFilters },
         { name := name, template := t2, applyGlobally := o2.applyGlobally,
           attachPosition := o2.attachPosition, localFilters := o2.localFilters }] ∧
      mixContent dC = attach o2.attachPosition (attach o1.attachPosition tmpl t1) t2 := by
  have hfil : ∀ m1 m2 : MixinDef, m1.name = name → m2.name = name →
      ([m1, m2].filter (fun m => m.applyGlobally || ([name].contains m.name))) = [m1, m2] := by
    intro m1 m2 h1 h2
    simp [List.filter_cons, h1, h2]
  have hs2 : defineMixin (defineMixin initialFacet name t1 o1) name t2 o2 =
      { mixins := some [{ name := name, template := t1, applyGlobally := o1.applyGlobally,
                          attachPosition := o1.attachPosition, localFilters := o1.localFilters },
                        { name := name, template := t2, applyGlobally := o2.applyGlobally,
                          attachPosition := o2.attachPosition, localFilters := o2.localFilters }],
        components := [] } := by
    simp [defineMixin, initialFacet]
  refine ⟨{ mixins := some [{ name := name, template := t1, applyGlobally := o1.applyGlobally,
                              attachPosition := o1.attachPosition, localFilters := o1.localFilters },
                            { name := name, template := t2, applyGlobally := o2.applyGlobally,
                              attachPosition := o2.attachPosition, localFilters := o2.localFilters }],
            components := [(tagName,
              { tagName := tagName, template := tmpl, shadowMode := sm, observeAttrs := obs,
                localMixins :=
                  [{ name := name, template := t1, applyGlobally := o1.applyGlobally,
                     attachPosition := o1.attachPosition, localFilters := o1.localFilters },
                   { name := name, template := t2, applyGlobally := o2.applyGlobally,
                     attachPosition := o2.attachPosition, localFilters := o2.localFilters }],
                localFilters := lf, extendsElement := ext, formAssoc := fa })] },
          { tagName := tagName, template := tmpl, shadowMode := sm, observeAttrs := obs,
            localMixins :=
              [{ name := name, template := t1, applyGlobally := o1.applyGlobally,
                 attachPosition := o1.attachPosition, localFilters := o1.localFilters },
               { name := name, template := t2, applyGlobally := o2.applyGlobally,
                 attachPosition := o2.attachPosition, localFilters := o2.localFilters }],
            localFilters := lf, extendsElement := ext, formAssoc := fa },
          by rw [hs2], ?_, rfl, rfl, by simp [mixContent, attach]⟩
  have hfl := hfil
    { name := name, template := t1, applyGlobally := o1.applyGlobally,
      attachPosition := o1.attachPosition, localFilters := o1.localFilters }
    { name := name, template := t2, applyGlobally := o2.applyGlobally,
      attachPosition := o2.attachPosition, localFilters := o2.localFilters } rfl rfl
  rw [hs2]
  simp only [defineComponent, hfl, List.find?_nil, Option.isSome_none,
             Bool.false_eq_true, if_false, List.nil_append]

/-- C7: discovery marks every processed marker template in place with a
`defined` attribute, and the selectors exclude marked templates, so once a
discovery pass succeeds, running it again over the same subtree — or over any
document subtree of the result — registers nothing and changes nothing:
discovery is idempotent. -/
theorem c7_discovery_idempotent (interp : Interp) (cfg : Config)
    (s s' : FacetState) (t t' : Node)
    (h : discoverDeclarativeComponents interp cfg s t = .ok (s', t')) :
    ∀ u, Subtree u t' → discoverDeclarativeComponents interp cfg s' u = .ok (s', u) := by
  rcases hmp : mixinPassN interp cfg s t with ⟨s1, t1⟩
  have h' : cmpntPassN interp cfg s1 t1 = .ok (s', t') := by
    rw [discoverDeclarativeComponents, hmp] at h
    exact h
  have hm1 : allMarkedN cfg.nsPrefix "mixin" t1 = true := by
    have := mixinPass_allMarkedN interp cfg s t
    rw [hmp] at this
    exact this
  have hm2 : allMarkedN cfg.nsPrefix "component" t' = true :=
    cmpntPass_allMarkedN interp cfg s1 t1 s' t' h'
  have hm3 : allMarkedN cfg.nsPrefix "mixin" t' = true :=
    cmpntPass_keeps_mixinMarkedN interp cfg s1 t1 s' t' h' hm1
  intro u hsub
  have hu1 : allMarkedN cfg.nsPrefix "mixin" u = true := allMarked_subtree _ _ hsub hm3
  have hu2 : allMarkedN cfg.nsPrefix "component" u = true := allMarked_subtree _ _ hsub hm2
  rw [discoverDeclarativeComponents, mixinPassN_of_allMarked interp cfg s' u hu1]
  exact cmpntPassN_of_allMarked interp cfg s' u hu2

def c7interp : Interp := fun _ => fun v _ => some v

def c7cfg : Config := { nsPrefix := "", defaultShadowMode := "closed" }

def c7page : Node :=
  .elem 0 "body" []
    [.elem 1 "template" [("mixin", "m")] [.text "M"],
     .elem 2 "template" [("component", "x-c")] [.text "C"]]

def c7state : FacetState :=
  { mixins := some [{ name := "m", template := [.text "M"], applyGlobally := false,
                      attachPosition := .append, localFilters := [] }],
    components := [("x-c",
      { tagName := "x-c", template := [.text "C"], shadowMode := "closed",
        observeAttrs := [], localMixins := [], localFilters := [],
        extendsElement := none, formAssoc := false })] }

def c7marked : Node :=
  .elem 0 "body" []
    [.elem 1 "template" [("mixin", "m"), ("defined", "true")] [.text "M"],
     .elem 2 "template" [("component", "x-c"), ("defined", "true")] [.text "C"]]

theorem c7_witness :
    discoverDeclarativeComponents c7interp c7cfg initialFacet c7page = .ok (c7state, c7marked) ∧
    discoverDeclarativeComponents c7interp c7cfg c7state c7marked = .ok (c7state, c7marked) := by
  have h1 : discoverDeclarativeComponents c7interp c7cfg initialFacet c7page =
      .ok (c7state, c7marked) := by
    simp [discoverDeclarativeComponents, c7interp, c7cfg, c7page, c7state, c7marked,
          mixinPassN, mixinPassL, cmpntPassN, cmpntPassL, matchesMarker,
          processMixin, processComponent, defineMixin, defineComponent, initialFacet,
          hasAttr, getAttr, extractFilters, setAttr, List.find?_cons]
  exact ⟨h1, c7_discovery_idempotent c7interp c7cfg initialFacet c7state c7page c7marked h1
    c7marked (Subtree.refl c7marked)⟩

end Facet
